import Mathlib

/-!
Shallow embedding of the `process_engine` workflow core:
`code/process_definition.py`, `code/task.py`, `executor/flow_executor.py`,
`code/engine.py`, `repository/instance_repository.py`,
`repository/definition_repository.py`, `service/task_service.py`.

Modelling conventions:
* Python dicts become association lists (`Dict α`) with `dictGet` (lookup)
  and `dictInsert` (insert-or-replace in place, preserving insertion order,
  matching CPython dict semantics).
* Dynamically typed variable values become the inductive `Value`
  (strings and ints, the types the repository actually stores); Python
  `str(...)` on such a value is `pyStr`.
* `uuid.uuid4()` is modelled by a fresh-id supply `freshId` driven by a
  counter in the engine state; distinct draws give distinct ids, which is
  the property uuid4 provides.
* `datetime.now()` timestamps are abstracted to `Option Unit`
  (`none` = unset, `some ()` = set to some wall-clock time).
* Python exceptions are modelled by an error field carried next to the
  mutated stores: the module-level repositories are not rolled back when
  an exception propagates, so a step returns its (possibly mutated) state
  together with `Option EngineError`.
* The executor's unbounded recursion (`_execute_node` calling itself) is
  modelled with a fuel parameter; exhausting fuel yields the artificial
  error `fuelExhausted`, which cannot occur in the runs studied here.
* In `_execute_node`, the `END` branch calls
  `self._execute_end_node(process_instance, process_definition, node)` while
  `_execute_end_node` is declared with the single parameter
  `process_instance`; at run time Python raises `TypeError` at the call
  site and the body of `_execute_end_node` never executes. This is
  modelled by the error `typeErrorEndNode`.
-/

namespace ProcessEngine

/-- A dynamically typed value stored in a vars/properties dict. -/
inductive Value where
  | vStr (s : String)
  | vInt (n : Int)
deriving DecidableEq

/-- Python `str(...)` applied to a stored value. -/
def pyStr : Value → String
  | .vStr s => s
  | .vInt n => toString n

/-- A Python dict keyed by strings, as an insertion-ordered association list. -/
abbrev Dict (α : Type) := List (String × α)

/-- Python `d.get(key)`. -/
def dictGet {α : Type} : Dict α → String → Option α
  | [], _ => none
  | (k, v) :: rest, key => if k = key then some v else dictGet rest key

/-- Python `d[key] = val`: replace in place if the key exists (keeping its
position, as CPython dicts do), else append. -/
def dictInsert {α : Type} (key : String) (val : α) : Dict α → Dict α
  | [] => [(key, val)]
  | (k, v) :: rest =>
    if k = key then (key, val) :: rest else (k, v) :: dictInsert key val rest

/-- Python `d.update(upd)`: insert every binding of `upd` in order. -/
def dictUpdate {α : Type} (d upd : Dict α) : Dict α :=
  upd.foldl (fun acc kv => dictInsert kv.1 kv.2 acc) d

/-- Python `sub in s` on char lists (substring containment). -/
def containsChars (pat : List Char) : List Char → Bool
  | [] => pat.isPrefixOf []
  | c :: rest => pat.isPrefixOf (c :: rest) || containsChars pat rest

/-- Python `sub in s` for strings. -/
def pyContains (s sub : String) : Bool :=
  containsChars sub.data s.data

/-- Worker for `pyReplace`; the fuel is the string length, and each step
consumes at least one character, so the fuel never runs out. -/
def replaceCharsFuel (pat repl : List Char) : Nat → List Char → List Char
  | _, [] => []
  | 0, s => s
  | fuel + 1, c :: rest =>
    if pat ≠ [] ∧ pat.isPrefixOf (c :: rest) then
      repl ++ replaceCharsFuel pat repl fuel ((c :: rest).drop pat.length)
    else c :: replaceCharsFuel pat repl fuel rest

/-- Python `s.replace(pat, repl)`: replace all non-overlapping occurrences
left to right (for non-empty `pat`, the only way the source uses it). -/
def pyReplace (s pat repl : String) : String :=
  String.mk (replaceCharsFuel pat.data repl.data s.data.length s.data)

/-- NodeType from `process_definition.py`. -/
inductive NodeType where
  | START
  | END
  | TASK
  | DECISION
  | PARALLEL
  | JOIN
deriving DecidableEq

/-- TaskStatus from `task.py`. -/
inductive TaskStatus where
  | CREATED
  | ASSIGNED
  | IN_PROGRESS
  | COMPLETED
  | FAILED
deriving DecidableEq

/-- Node from `process_definition.py`. -/
structure Node where
  id : String
  name : String
  type : NodeType
  properties : Dict Value := []
  outgoing : List String := []
  incoming : List String := []
deriving DecidableEq

/-- ProcessDefinition from `process_definition.py`. -/
structure ProcessDefinition where
  id : String
  name : String
  version : Int
  nodes : Dict Node
  start_node_id : String
  is_active : Bool := true
deriving DecidableEq

/-- `ProcessDefinition.get_node`: `self.nodes.get(node_id)`. -/
def ProcessDefinition.get_node (d : ProcessDefinition) (node_id : String) : Option Node :=
  dictGet d.nodes node_id

/-- ProcessInstance from `process_definition.py`; status is one of the
strings "running", "completed", "suspended", "terminated". -/
structure ProcessInstance where
  id : String
  process_definition_id : String
  status : String
  vars : Dict Value := []
  current_node_ids : List String := []
  completed_at : Option Unit := none
deriving DecidableEq

/-- Task from `task.py`. -/
structure Task where
  id : String
  process_instance_id : String
  node_id : String
  name : String
  task_type : String
  assignee : Option String := none
  status : TaskStatus := TaskStatus.CREATED
  vars : Dict Value := []
  assigned_at : Option Unit := none
  completed_at : Option Unit := none
  due_date : Option Value := none
deriving DecidableEq

/-- `Task.assign` from `task.py`. -/
def Task.assign (t : Task) (assignee : String) : Task :=
  { t with assignee := some assignee, status := TaskStatus.ASSIGNED, assigned_at := some () }

/-- `Task.start_work` from `task.py`: only moves ASSIGNED to IN_PROGRESS. -/
def Task.start_work (t : Task) : Task :=
  if t.status = TaskStatus.ASSIGNED then { t with status := TaskStatus.IN_PROGRESS } else t

/-- `Task.complete` from `task.py`. -/
def Task.complete (t : Task) : Task :=
  { t with status := TaskStatus.COMPLETED, completed_at := some () }

/-- The engine's module-level stores (`DefinitionRepository`,
`InstanceRepository`) plus the fresh-id counter modelling `uuid.uuid4()`. -/
structure EngineState where
  definitions : Dict ProcessDefinition := []
  instances : Dict ProcessInstance := []
  tasks : Dict Task := []
  nextId : Nat := 0
deriving DecidableEq

/-- The fresh id produced for counter value `n` (models `uuid.uuid4()`:
distinct draws are distinct ids). -/
def freshId (n : Nat) : String :=
  "uuid-" ++ String.mk (List.replicate n 'x')

/-- The Python exceptions the core can raise, plus the fuel artifact. -/
inductive EngineError where
  | definitionNotFound (id : String)
  | definitionNotFoundOrInactive (id : String)
  | taskNotFoundOrNotInProgress (id : String)
  | typeErrorEndNode
  | attributeErrorNoneInstance
  | fuelExhausted
deriving DecidableEq

/-- Result of one executor entry: the stores after the call, the threaded
process-instance object, and the exception (if one propagated). -/
structure StepResult where
  st : EngineState
  inst : ProcessInstance
  err : Option EngineError
deriving DecidableEq

/-- `InstanceRepository.update` (upsert keyed by instance id). -/
def updInstance (st : EngineState) (inst : ProcessInstance) : EngineState :=
  { st with instances := dictInsert inst.id inst st.instances }

/-- `node.properties.get(key, default)` coerced through `str` for fields
the dataclass types as `str`. -/
def propGetStr (props : Dict Value) (key default : String) : String :=
  match dictGet props key with
  | some v => pyStr v
  | none => default

/-- `node.properties.get(key)` for the optional string fields. -/
def propGetOptStr (props : Dict Value) (key : String) : Option String :=
  (dictGet props key).map pyStr

/-- The `Task(...)` construction in `FlowExecutor._execute_task_node`. -/
def mkTask (st : EngineState) (inst : ProcessInstance) (node : Node) : Task :=
  { id := freshId st.nextId,
    process_instance_id := inst.id,
    node_id := node.id,
    name := node.name,
    task_type := propGetStr node.properties "task_type" "user_task",
    assignee := propGetOptStr node.properties "assignee",
    due_date := dictGet node.properties "due_date" }

/-- The loop of `_execute_decision_node` over `enumerate(node.outgoing)`:
for the first index `i` with `i < len(outgoing) - 1` and
`str(var_value) == str(i)`, returns that outgoing id. -/
def matchIndexAux (outLen : Nat) (valStr : String) : Nat → List String → Option String
  | _, [] => none
  | i, outgoing_id :: rest =>
    if i < outLen - 1 then
      if valStr = toString i then some outgoing_id
      else matchIndexAux outLen valStr (i + 1) rest
    else matchIndexAux outLen valStr (i + 1) rest

/-- The path choice of `FlowExecutor._execute_decision_node`:
`default_path = node.outgoing[-1] if node.outgoing else None`; when the
condition is a truthy string containing both braces, the referenced
instance variable (if bound) is matched by stringified index against every
outgoing edge but the last; otherwise the default path stands. -/
def decisionNext (node : Node) (vars : Dict Value) : Option String :=
  let default_path : Option String := node.outgoing.getLast?
  let matched : Option String :=
    match dictGet node.properties "condition" with
    | some (Value.vStr condition) =>
      if condition ≠ "" ∧ pyContains condition "\x7b\x7b" = true ∧
          pyContains condition "\x7d\x7d" = true then
        let var_name := pyReplace (pyReplace condition "\x7b\x7b" "") "\x7d\x7d" ""
        match dictGet vars var_name with
        | some var_value => matchIndexAux node.outgoing.length (pyStr var_value) 0 node.outgoing
        | none => none
      else none
    | _ => none
  match matched with
  | some next_node_id => some next_node_id
  | none => default_path

/-- `FlowExecutor._execute_node` (with the per-type bodies of
`_execute_start_node`, `_execute_task_node`, `_execute_end_node`,
`_execute_decision_node` inlined at their single call sites).
PARALLEL and JOIN have no branch in the source and fall through.
The END branch raises `typeErrorEndNode` (see the module comment). -/
def execNode : Nat → EngineState → ProcessDefinition → ProcessInstance → Node → StepResult
  | 0, st, _, inst, _ => ⟨st, inst, some EngineError.fuelExhausted⟩
  | fuel + 1, st, defn, inst, node =>
    match node.type with
    | NodeType.START =>
      match node.outgoing with
      | [] => ⟨st, inst, none⟩
      | next_node_id :: _ =>
        let inst1 := { inst with current_node_ids := [next_node_id] }
        let st1 := updInstance st inst1
        match defn.get_node next_node_id with
        | some next_node => execNode fuel st1 defn inst1 next_node
        | none => ⟨st1, inst1, none⟩
    | NodeType.TASK =>
      let task := mkTask st inst node
      let st1 := { st with tasks := dictInsert task.id task st.tasks, nextId := st.nextId + 1 }
      if task.task_type = "service_task" then
        let task1 := task.start_work.complete
        let st2 := { st1 with tasks := dictInsert task1.id task1 st1.tasks }
        match node.outgoing with
        | [] => ⟨st2, inst, none⟩
        | next_node_id :: _ =>
          let inst1 := { inst with current_node_ids := [next_node_id] }
          let st3 := updInstance st2 inst1
          match defn.get_node next_node_id with
          | some next_node => execNode fuel st3 defn inst1 next_node
          | none => ⟨st3, inst1, none⟩
      else ⟨st1, inst, none⟩
    | NodeType.END => ⟨st, inst, some EngineError.typeErrorEndNode⟩
    | NodeType.DECISION =>
      match decisionNext node inst.vars with
      | none => ⟨st, inst, none⟩
      | some next_node_id =>
        if next_node_id = "" then ⟨st, inst, none⟩
        else
          let inst1 := { inst with current_node_ids := [next_node_id] }
          let st1 := updInstance st inst1
          match defn.get_node next_node_id with
          | some next_node => execNode fuel st1 defn inst1 next_node
          | none => ⟨st1, inst1, none⟩
    | NodeType.PARALLEL => ⟨st, inst, none⟩
    | NodeType.JOIN => ⟨st, inst, none⟩

/-- The `for node in current_nodes` loop of `FlowExecutor.execute`; a raised
exception aborts the loop with the stores as mutated so far. -/
def execNodes : Nat → EngineState → ProcessDefinition → ProcessInstance → List Node → StepResult
  | _, st, _, inst, [] => ⟨st, inst, none⟩
  | fuel, st, defn, inst, node :: rest =>
    let r := execNode fuel st defn inst node
    match r.err with
    | some e => ⟨r.st, r.inst, some e⟩
    | none => execNodes fuel r.st defn r.inst rest

/-- `FlowExecutor.execute`: load the definition (raising if absent), snapshot
the resolvable current nodes (ids without a node are silently dropped by the
`if node is not None` filter), and execute them in order. -/
def execute (fuel : Nat) (st : EngineState) (inst : ProcessInstance) : StepResult :=
  match dictGet st.definitions inst.process_definition_id with
  | none => ⟨st, inst, some (EngineError.definitionNotFound inst.process_definition_id)⟩
  | some defn =>
    let current_nodes := inst.current_node_ids.filterMap defn.get_node
    execNodes fuel st defn inst current_nodes

/-- `WorkflowEngine.deploy_process`. -/
def deploy_process (st : EngineState) (d : ProcessDefinition) : EngineState × String :=
  ({ st with definitions := dictInsert d.id d st.definitions }, d.id)

/-- `WorkflowEngine.start_process`: returns the stores after the call, the
instance id handed back to the caller (`none` when an exception propagated),
and the exception if any. -/
def start_process (fuel : Nat) (st : EngineState) (process_definition_id : String)
    (vars : Dict Value) : EngineState × Option String × Option EngineError :=
  match dictGet st.definitions process_definition_id with
  | none => (st, none, some (EngineError.definitionNotFoundOrInactive process_definition_id))
  | some defn =>
    if defn.is_active = false then
      (st, none, some (EngineError.definitionNotFoundOrInactive process_definition_id))
    else
      let inst : ProcessInstance :=
        { id := freshId st.nextId,
          process_definition_id := process_definition_id,
          status := "running",
          vars := vars,
          current_node_ids := [defn.start_node_id] }
      let st1 := { st with nextId := st.nextId + 1,
                           instances := dictInsert inst.id inst st.instances }
      let r := execute fuel st1 inst
      match r.err with
      | some e => (r.st, none, some e)
      | none => (r.st, some inst.id, none)

/-- `WorkflowEngine.complete_task`: rejects unless the task exists with
status IN_PROGRESS, completes it, merges the supplied vars into the
task's vars (only there), persists it, loads the owning instance and
re-invokes the Flow Executor on it with `current_node_ids` untouched. -/
def complete_task (fuel : Nat) (st : EngineState) (task_id : String)
    (vars : Dict Value) : EngineState × Option EngineError :=
  match dictGet st.tasks task_id with
  | none => (st, some (EngineError.taskNotFoundOrNotInProgress task_id))
  | some task =>
    if task.status ≠ TaskStatus.IN_PROGRESS then
      (st, some (EngineError.taskNotFoundOrNotInProgress task_id))
    else
      let task1 := task.complete
      let task2 :=
        if vars ≠ [] then { task1 with vars := dictUpdate task1.vars vars }
        else task1
      let st1 := { st with tasks := dictInsert task2.id task2 st.tasks }
      match dictGet st1.instances task2.process_instance_id with
      | none => (st1, some EngineError.attributeErrorNoneInstance)
      | some process_instance =>
        let r := execute fuel st1 process_instance
        (r.st, r.err)

/-- `TaskService.assign_task`. -/
def assign_task (st : EngineState) (task_id assignee : String) : EngineState :=
  match dictGet st.tasks task_id with
  | some task => { st with tasks := dictInsert task_id (task.assign assignee) st.tasks }
  | none => st

/-- `TaskService.start_task`. -/
def start_task (st : EngineState) (task_id : String) : EngineState :=
  match dictGet st.tasks task_id with
  | some task =>
    if task.status = TaskStatus.ASSIGNED then
      { st with tasks := dictInsert task_id task.start_work st.tasks }
    else st
  | none => st

/-- Every instance record in the store has a singleton active-node list. -/
def singletonCurrent (st : EngineState) : Prop :=
  ∀ iid i, dictGet st.instances iid = some i → i.current_node_ids.length = 1

/-! Concrete fixtures used to evaluate the engine on small inputs. -/

/-- The empty engine state (fresh module-level repositories). -/
def emptyState : EngineState := {}

/-- A linear chain START → TASK (user_task) → END. -/
def chainUserDef : ProcessDefinition :=
  { id := "def-user", name := "user chain", version := 1,
    nodes :=
      [("start_1", { id := "start_1", name := "start", type := NodeType.START,
                     outgoing := ["task_1"] }),
       ("task_1", { id := "task_1", name := "approve", type := NodeType.TASK,
                    properties := [("task_type", Value.vStr "user_task")],
                    outgoing := ["end_1"], incoming := ["start_1"] }),
       ("end_1", { id := "end_1", name := "finish", type := NodeType.END,
                   incoming := ["task_1"] })],
    start_node_id := "start_1" }

/-- A linear chain START → TASK (service_task) → END. -/
def chainServiceDef : ProcessDefinition :=
  { id := "def-svc", name := "service chain", version := 1,
    nodes :=
      [("start_1", { id := "start_1", name := "start", type := NodeType.START,
                     outgoing := ["task_1"] }),
       ("task_1", { id := "task_1", name := "archive", type := NodeType.TASK,
                    properties := [("task_type", Value.vStr "service_task")],
                    outgoing := ["end_1"], incoming := ["start_1"] }),
       ("end_1", { id := "end_1", name := "finish", type := NodeType.END,
                   incoming := ["task_1"] })],
    start_node_id := "start_1" }

/-- State after deploying the user chain. -/
def stA0 : EngineState := (deploy_process emptyState chainUserDef).1

/-- Run of `start_process` on the user chain: instance `uuid-` parked at
`task_1` with one CREATED task `uuid-x`. -/
def stA1 : EngineState × Option String × Option EngineError :=
  start_process 9 stA0 "def-user" []

/-- The parked user task gets assigned. -/
def stA2 : EngineState := assign_task stA1.1 "uuid-x" "admin"

/-- The assigned task is started (IN_PROGRESS). -/
def stA3 : EngineState := start_task stA2 "uuid-x"

/-- Completion of the in-progress user task with no variables (the C1 run). -/
def stA4 : EngineState × Option EngineError := complete_task 9 stA3 "uuid-x" []

/-- Completion of the in-progress user task with a variable (the C3 run). -/
def stC : EngineState × Option EngineError :=
  complete_task 9 stA3 "uuid-x" [("approved", Value.vStr "yes")]

/-- Run of `start_process` on the service chain (the C2 run). -/
def stB : EngineState × Option String × Option EngineError :=
  start_process 9 ((deploy_process emptyState chainServiceDef).1) "def-svc" []

/-- The instance record parked at the user task node, as stored after `stA1`. -/
def instParked : ProcessInstance :=
  { id := "uuid-", process_definition_id := "def-user", status := "running",
    vars := [], current_node_ids := ["task_1"] }

/-- First re-invocation of the executor on the parked instance. -/
def rP1 : StepResult := execute 9 stA1.1 instParked

/-- Second re-invocation of the executor on the parked instance. -/
def rP2 : StepResult := execute 9 rP1.st rP1.inst

/-- The parked instance with status forced to "terminated". -/
def instTerminated : ProcessInstance := { instParked with status := "terminated" }

/-- Executor invocation on the terminated instance. -/
def rT : StepResult := execute 9 stA1.1 instTerminated

/-- An instance whose single current node id is absent from its definition. -/
def instGhost : ProcessInstance :=
  { id := "ghost-inst", process_definition_id := "def-user", status := "running",
    vars := [], current_node_ids := ["ghost"] }

/-- Executor invocation on the instance at a dangling node id. -/
def rGhost : StepResult := execute 9 stA0 instGhost

/-! Hand-built witness states (ids deliberately shorter than any `freshId`). -/

/-- A one-node definition used by the witness states. -/
def wDefn : ProcessDefinition :=
  { id := "d1", name := "w", version := 1,
    nodes :=
      [("t_node", { id := "t_node", name := "work", type := NodeType.TASK,
                    properties := [("task_type", Value.vStr "user_task")],
                    outgoing := ["gone"] })],
    start_node_id := "t_node" }

/-- Witness instance parked at the task node. -/
def wInst : ProcessInstance :=
  { id := "i1", process_definition_id := "d1", status := "running",
    vars := [("old", Value.vInt 1)], current_node_ids := ["t_node"] }

/-- Witness task in IN_PROGRESS, completable. -/
def wTaskInProgress : Task :=
  { id := "t1", process_instance_id := "i1", node_id := "t_node", name := "work",
    task_type := "user_task", status := TaskStatus.IN_PROGRESS }

/-- Witness task still ASSIGNED. -/
def wTaskAssigned : Task :=
  { id := "t2", process_instance_id := "i1", node_id := "t_node", name := "work",
    task_type := "user_task", status := TaskStatus.ASSIGNED }

/-- Witness task already COMPLETED (a second completion attempt). -/
def wTaskDone : Task :=
  { id := "t3", process_instance_id := "i1", node_id := "t_node", name := "work",
    task_type := "user_task", status := TaskStatus.COMPLETED }

/-- Witness engine state holding the definition, instance and tasks above. -/
def wSt : EngineState :=
  { definitions := [("d1", wDefn)],
    instances := [("i1", wInst)],
    tasks := [("t1", wTaskInProgress), ("t2", wTaskAssigned), ("t3", wTaskDone)],
    nextId := 0 }

/-- The task node of the witness definition. -/
def wTaskNode : Node :=
  { id := "t_node", name := "work", type := NodeType.TASK,
    properties := [("task_type", Value.vStr "user_task")], outgoing := ["gone"] }

/-- A TASK node whose task type is script_task (the C5 counterexample node). -/
def wScriptNode : Node :=
  { id := "sc_node", name := "script", type := NodeType.TASK,
    properties := [("task_type", Value.vStr "script_task")], outgoing := ["gone"] }

/-- A TASK node whose task type is service_task. -/
def wServiceNode : Node :=
  { id := "svc_node", name := "svc", type := NodeType.TASK,
    properties := [("task_type", Value.vStr "service_task")], outgoing := ["gone"] }

/-- A START node whose single outgoing edge dangles (C7 witness). -/
def wStartDangling : Node :=
  { id := "s_node", name := "start", type := NodeType.START, outgoing := ["gone"] }

/-- Definition holding only the dangling START node. -/
def wEdgeDefn : ProcessDefinition :=
  { id := "d2", name := "w2", version := 1,
    nodes := [("s_node", wStartDangling)],
    start_node_id := "s_node" }

/-- Instance positioned at the dangling START node. -/
def wEdgeInst : ProcessInstance :=
  { id := "i2", process_definition_id := "d2", status := "running",
    vars := [], current_node_ids := ["s_node"] }

/-- State for the dangling-edge witness. -/
def wEdgeSt : EngineState :=
  { definitions := [("d2", wEdgeDefn)],
    instances := [("i2", wEdgeInst)],
    tasks := [], nextId := 0 }

/-- The DECISION node of the spec's routing example: condition
`{{approval}}` (written with escaped braces), outgoing `[task_2, task_3]`. -/
def wDecisionNode : Node :=
  { id := "dec_1", name := "route", type := NodeType.DECISION,
    properties := [("condition", Value.vStr "\x7b\x7bapproval\x7d\x7d")],
    outgoing := ["task_2", "task_3"] }

/-! Association-list (Python dict) lemmas. -/

theorem dictUpdate_nil {α : Type} (d : Dict α) : dictUpdate d [] = d := rfl

theorem dictUpdate_cons {α : Type} (d : Dict α) (k : String) (v : α) (rest : Dict α) :
    dictUpdate d ((k, v) :: rest) = dictUpdate (dictInsert k v d) rest := rfl

theorem dictGet_dictInsert {α : Type} (key : String) (val : α) (d : Dict α) (q : String) :
    dictGet (dictInsert key val d) q = if key = q then some val else dictGet d q := by
  induction d with
  | nil => simp [dictInsert, dictGet]
  | cons kv rest ih =>
    obtain ⟨k, v⟩ := kv
    by_cases hk : k = key
    · subst hk
      simp only [dictInsert, if_pos rfl, dictGet]
      split_ifs <;> simp_all [dictGet]
    · simp only [dictInsert, if_neg hk, dictGet, ih]
      split_ifs <;> simp_all

theorem dictGet_dictInsert_self {α : Type} (key : String) (val : α) (d : Dict α) :
    dictGet (dictInsert key val d) key = some val := by
  simp [dictGet_dictInsert]

theorem dictGet_dictInsert_ne {α : Type} (key : String) (val : α) (d : Dict α) (q : String)
    (h : key ≠ q) : dictGet (dictInsert key val d) q = dictGet d q := by
  simp [dictGet_dictInsert, h]

theorem length_dictInsert_of_none {α : Type} (key : String) (val : α) (d : Dict α)
    (h : dictGet d key = none) : (dictInsert key val d).length = d.length + 1 := by
  induction d with
  | nil => rfl
  | cons kv rest ih =>
    obtain ⟨k, v⟩ := kv
    simp only [dictGet] at h
    by_cases hk : k = key
    · simp [hk] at h
    · simp only [dictInsert, if_neg hk, List.length_cons]
      rw [ih (by simpa [hk] using h)]

theorem dictGet_eq_none_of_not_mem {α : Type} (d : Dict α) (q : String)
    (h : q ∉ d.map Prod.fst) : dictGet d q = none := by
  induction d with
  | nil => rfl
  | cons kv rest ih =>
    obtain ⟨k, v⟩ := kv
    simp only [List.map_cons, List.mem_cons, not_or] at h
    simp only [dictGet, if_neg (Ne.symm h.1)]
    exact ih h.2

theorem dictGet_dictUpdate_of_none {α : Type} (upd : Dict α) (d : Dict α) (q : String)
    (h : dictGet upd q = none) : dictGet (dictUpdate d upd) q = dictGet d q := by
  induction upd generalizing d with
  | nil => rfl
  | cons kv rest ih =>
    obtain ⟨k, v⟩ := kv
    simp only [dictGet] at h
    by_cases hk : k = q
    · simp [hk] at h
    · rw [dictUpdate_cons, ih (dictInsert k v d) (by simpa [hk] using h),
        dictGet_dictInsert_ne k v d q hk]

theorem dictGet_dictUpdate_of_get {α : Type} (upd : Dict α) (d : Dict α) (q : String) (v : α)
    (hnodup : (upd.map Prod.fst).Nodup) (h : dictGet upd q = some v) :
    dictGet (dictUpdate d upd) q = some v := by
  induction upd generalizing d with
  | nil => simp [dictGet] at h
  | cons kv rest ih =>
    obtain ⟨k, w⟩ := kv
    simp only [List.map_cons, List.nodup_cons] at hnodup
    simp only [dictGet] at h
    rw [dictUpdate_cons]
    by_cases hk : k = q
    · have hw : w = v := by simpa [hk] using h
      subst hw
      subst hk
      rw [dictGet_dictUpdate_of_none rest (dictInsert k w d) k
          (dictGet_eq_none_of_not_mem rest k hnodup.1),
        dictGet_dictInsert_self]
    · exact ih (dictInsert k w d) hnodup.2 (by simpa [hk] using h)

/-! Fresh-id lemmas. -/

theorem freshId_data (n : Nat) : (freshId n).data = "uuid-".data ++ List.replicate n 'x' := rfl

theorem freshId_length (n : Nat) : (freshId n).length = 5 + n := by
  show (freshId n).data.length = 5 + n
  rw [freshId_data, List.length_append, List.length_replicate]
  rfl

theorem freshId_inj {m n : Nat} (h : freshId m = freshId n) : m = n := by
  have := congrArg String.length h
  rw [freshId_length, freshId_length] at this
  omega

theorem ne_freshId_of_length_lt (s : String) (h : s.length < 5) (n : Nat) : s ≠ freshId n := by
  intro he
  have := congrArg String.length he
  rw [freshId_length] at this
  omega

/-! Executor invariants, by induction on the fuel. -/

theorem execNode_nextId_mono (fuel : Nat) (defn : ProcessDefinition) :
    ∀ (st : EngineState) (inst : ProcessInstance) (node : Node),
      st.nextId ≤ (execNode fuel st defn inst node).st.nextId := by
  induction fuel with
  | zero => intro st inst node; exact le_refl _
  | succ fuel ih =>
    intro st inst node
    cases hnt : node.type <;> simp only [execNode, hnt]
    case START =>
      split
      · exact le_refl _
      · split
        · refine le_trans ?_ (ih _ _ _)
          exact le_of_eq rfl
        · exact le_refl _
    case TASK =>
      split
      · split
        · exact Nat.le_succ _
        · split
          · refine le_trans ?_ (ih _ _ _)
            exact Nat.le_succ _
          · exact Nat.le_succ _
      · exact Nat.le_succ _
    case END => exact le_refl _
    case DECISION =>
      split
      · exact le_refl _
      · split
        · exact le_refl _
        · split
          · refine le_trans ?_ (ih _ _ _)
            exact le_of_eq rfl
          · exact le_refl _
    case PARALLEL => exact le_refl _
    case JOIN => exact le_refl _

@[simp] theorem updInstance_instances (st : EngineState) (i : ProcessInstance) :
    (updInstance st i).instances = dictInsert i.id i st.instances := rfl

@[simp] theorem updInstance_tasks (st : EngineState) (i : ProcessInstance) :
    (updInstance st i).tasks = st.tasks := rfl

@[simp] theorem updInstance_nextId (st : EngineState) (i : ProcessInstance) :
    (updInstance st i).nextId = st.nextId := rfl

@[simp] theorem mkTask_id (st : EngineState) (inst : ProcessInstance) (node : Node) :
    (mkTask st inst node).id = freshId st.nextId := rfl

@[simp] theorem mkTask_start_work (st : EngineState) (inst : ProcessInstance) (node : Node) :
    (mkTask st inst node).start_work = mkTask st inst node := rfl

@[simp] theorem complete_id (t : Task) : t.complete.id = t.id := rfl

@[simp] theorem complete_status (t : Task) : t.complete.status = TaskStatus.COMPLETED := rfl

theorem execNode_tasks_frozen (fuel : Nat) (defn : ProcessDefinition) :
    ∀ (st : EngineState) (inst : ProcessInstance) (node : Node) (k : String),
      (∀ n, st.nextId ≤ n → k ≠ freshId n) →
      dictGet (execNode fuel st defn inst node).st.tasks k = dictGet st.tasks k := by
  induction fuel with
  | zero => intro st inst node k hk; rfl
  | succ fuel ih =>
    intro st inst node k hk
    have hne : freshId st.nextId ≠ k := Ne.symm (hk st.nextId (le_refl _))
    cases hnt : node.type <;> simp only [execNode, hnt]
    case START =>
      split
      · rfl
      · split
        · refine (ih _ _ _ k ?_).trans ?_
          · exact fun n hn => hk n hn
          · rfl
        · rfl
    case TASK =>
      split
      · split
        · simp only [mkTask_start_work, complete_id, mkTask_id]
          rw [dictGet_dictInsert_ne _ _ _ _ hne, dictGet_dictInsert_ne _ _ _ _ hne]
        · split
          · refine (ih _ _ _ k ?_).trans ?_
            · exact fun n hn => hk n (le_trans (Nat.le_succ _) hn)
            · simp only [updInstance_tasks, mkTask_start_work, complete_id, mkTask_id]
              rw [dictGet_dictInsert_ne _ _ _ _ hne, dictGet_dictInsert_ne _ _ _ _ hne]
          · simp only [updInstance_tasks, mkTask_start_work, complete_id, mkTask_id]
            rw [dictGet_dictInsert_ne _ _ _ _ hne, dictGet_dictInsert_ne _ _ _ _ hne]
      · simp only [mkTask_id]
        rw [dictGet_dictInsert_ne _ _ _ _ hne]
    case DECISION =>
      split
      · rfl
      · split
        · rfl
        · split
          · refine (ih _ _ _ k ?_).trans ?_
            · exact fun n hn => hk n hn
            · rfl
          · rfl

theorem execNode_vars_pres (fuel : Nat) (defn : ProcessDefinition) :
    ∀ (st : EngineState) (inst : ProcessInstance) (node : Node),
      ((execNode fuel st defn inst node).inst.vars = inst.vars) ∧
      (∀ iid v, dictGet (execNode fuel st defn inst node).st.instances iid = some v →
        dictGet st.instances iid = some v ∨ v.vars = inst.vars) := by
  induction fuel with
  | zero => intro st inst node; exact ⟨by trivial, fun iid v hv => Or.inl hv⟩
  | succ fuel ih =>
    intro st inst node
    cases hnt : node.type <;> simp only [execNode, hnt]
    case START =>
      split
      · exact ⟨by trivial, fun iid v hv => Or.inl hv⟩
      · split
        · constructor
          · exact (ih _ _ _).1
          · intro iid v hv
            rcases (ih _ _ _).2 iid v hv with h1 | h2
            · rw [updInstance_instances, dictGet_dictInsert] at h1
              split_ifs at h1 with hid
              · have hsub := Option.some_inj.mp h1
                subst hsub
                exact Or.inr rfl
              · exact Or.inl h1
            · exact Or.inr h2
        · constructor
          · trivial
          · intro iid v hv
            rw [updInstance_instances, dictGet_dictInsert] at hv
            split_ifs at hv with hid
            · have hsub := Option.some_inj.mp hv
              subst hsub
              exact Or.inr rfl
            · exact Or.inl hv
    case TASK =>
      split
      · split
        · exact ⟨by trivial, fun iid v hv => Or.inl hv⟩
        · split
          · constructor
            · exact (ih _ _ _).1
            · intro iid v hv
              rcases (ih _ _ _).2 iid v hv with h1 | h2
              · rw [updInstance_instances, dictGet_dictInsert] at h1
                split_ifs at h1 with hid
                · have hsub := Option.some_inj.mp h1
                  subst hsub
                  exact Or.inr rfl
                · exact Or.inl h1
              · exact Or.inr h2
          · constructor
            · trivial
            · intro iid v hv
              rw [updInstance_instances, dictGet_dictInsert] at hv
              split_ifs at hv with hid
              · have hsub := Option.some_inj.mp hv
                subst hsub
                exact Or.inr rfl
              · exact Or.inl hv
      · exact ⟨by trivial, fun iid v hv => Or.inl hv⟩
    case END => exact ⟨by trivial, fun iid v hv => Or.inl hv⟩
    case DECISION =>
      split
      · exact ⟨by trivial, fun iid v hv => Or.inl hv⟩
      · split
        · exact ⟨by trivial, fun iid v hv => Or.inl hv⟩
        · split
          · constructor
            · exact (ih _ _ _).1
            · intro iid v hv
              rcases (ih _ _ _).2 iid v hv with h1 | h2
              · rw [updInstance_instances, dictGet_dictInsert] at h1
                split_ifs at h1 with hid
                · have hsub := Option.some_inj.mp h1
                  subst hsub
                  exact Or.inr rfl
                · exact Or.inl h1
              · exact Or.inr h2
          · constructor
            · trivial
            · intro iid v hv
              rw [updInstance_instances, dictGet_dictInsert] at hv
              split_ifs at hv with hid
              · have hsub := Option.some_inj.mp hv
                subst hsub
                exact Or.inr rfl
              · exact Or.inl hv
    case PARALLEL => exact ⟨by trivial, fun iid v hv => Or.inl hv⟩
    case JOIN => exact ⟨by trivial, fun iid v hv => Or.inl hv⟩

theorem execNode_err_shape (fuel : Nat) (defn : ProcessDefinition) :
    ∀ (st : EngineState) (inst : ProcessInstance) (node : Node) (tid : String),
      (execNode fuel st defn inst node).err ≠
        some (EngineError.taskNotFoundOrNotInProgress tid) := by
  induction fuel with
  | zero => intro st inst node tid h; simp [execNode] at h
  | succ fuel ih =>
    intro st inst node tid
    cases hnt : node.type <;> simp only [execNode, hnt]
    case START =>
      split
      · simp
      · split
        · exact ih _ _ _ _
        · simp
    case TASK =>
      split
      · split
        · simp
        · split
          · exact ih _ _ _ _
          · simp
      · simp
    case END => simp
    case DECISION =>
      split
      · simp
      · split
        · simp
        · split
          · exact ih _ _ _ _
          · simp
    case PARALLEL => simp
    case JOIN => simp

theorem execNode_len (fuel : Nat) (defn : ProcessDefinition) :
    ∀ (st : EngineState) (inst : ProcessInstance) (node : Node),
      inst.current_node_ids.length = 1 →
      (execNode fuel st defn inst node).inst.current_node_ids.length = 1 := by
  induction fuel with
  | zero => intro st inst node h; exact h
  | succ fuel ih =>
    intro st inst node h
    cases hnt : node.type <;> simp only [execNode, hnt]
    case START =>
      split
      · exact h
      · split
        · exact ih _ _ _ rfl
        · rfl
    case TASK =>
      split
      · split
        · exact h
        · split
          · exact ih _ _ _ rfl
          · rfl
      · exact h
    case END => exact h
    case DECISION =>
      split
      · exact h
      · split
        · exact h
        · split
          · exact ih _ _ _ rfl
          · rfl
    case PARALLEL => exact h
    case JOIN => exact h

theorem execNode_singleton_store (fuel : Nat) (defn : ProcessDefinition) :
    ∀ (st : EngineState) (inst : ProcessInstance) (node : Node),
      singletonCurrent st → inst.current_node_ids.length = 1 →
      singletonCurrent (execNode fuel st defn inst node).st := by
  induction fuel with
  | zero => intro st inst node hst _; exact hst
  | succ fuel ih =>
    intro st inst node hst h
    have hupd : ∀ x : String, singletonCurrent (updInstance st { inst with current_node_ids := [x] }) := by
      intro x iid i hsome
      rw [updInstance_instances, dictGet_dictInsert] at hsome
      split_ifs at hsome with hid
      · have hsub := Option.some_inj.mp hsome
        subst hsub
        rfl
      · exact hst iid i hsome
    cases hnt : node.type <;> simp only [execNode, hnt]
    case START =>
      split
      · exact hst
      · split
        · exact ih _ _ _ (hupd _) rfl
        · exact hupd _
    case TASK =>
      split
      · split
        · exact hst
        · split
          · refine ih _ _ _ ?_ rfl
            intro iid i hsome
            rw [updInstance_instances, dictGet_dictInsert] at hsome
            split_ifs at hsome with hid
            · have hsub := Option.some_inj.mp hsome
              subst hsub
              rfl
            · exact hst iid i hsome
          · intro iid i hsome
            rw [updInstance_instances, dictGet_dictInsert] at hsome
            split_ifs at hsome with hid
            · have hsub := Option.some_inj.mp hsome
              subst hsub
              rfl
            · exact hst iid i hsome
      · exact hst
    case END => exact hst
    case DECISION =>
      split
      · exact hst
      · split
        · exact hst
        · split
          · exact ih _ _ _ (hupd _) rfl
          · exact hupd _
    case PARALLEL => exact hst
    case JOIN => exact hst

theorem execNodes_nextId_mono (fuel : Nat) (defn : ProcessDefinition) :
    ∀ (nodes : List Node) (st : EngineState) (inst : ProcessInstance),
      st.nextId ≤ (execNodes fuel st defn inst nodes).st.nextId := by
  intro nodes
  induction nodes with
  | nil => intro st inst; exact le_refl _
  | cons node rest ihn =>
    intro st inst
    simp only [execNodes]
    split
    · exact execNode_nextId_mono fuel defn st inst node
    · exact le_trans (execNode_nextId_mono fuel defn st inst node) (ihn _ _)

theorem execNodes_tasks_frozen (fuel : Nat) (defn : ProcessDefinition) :
    ∀ (nodes : List Node) (st : EngineState) (inst : ProcessInstance) (k : String),
      (∀ n, st.nextId ≤ n → k ≠ freshId n) →
      dictGet (execNodes fuel st defn inst nodes).st.tasks k = dictGet st.tasks k := by
  intro nodes
  induction nodes with
  | nil => intro st inst k hk; rfl
  | cons node rest ihn =>
    intro st inst k hk
    simp only [execNodes]
    split
    · exact execNode_tasks_frozen fuel defn st inst node k hk
    · refine (ihn _ _ k ?_).trans (execNode_tasks_frozen fuel defn st inst node k hk)
      exact fun n hn => hk n (le_trans (execNode_nextId_mono fuel defn st inst node) hn)

theorem execNodes_vars_pres (fuel : Nat) (defn : ProcessDefinition) :
    ∀ (nodes : List Node) (st : EngineState) (inst : ProcessInstance),
      ((execNodes fuel st defn inst nodes).inst.vars = inst.vars) ∧
      (∀ iid v, dictGet (execNodes fuel st defn inst nodes).st.instances iid = some v →
        dictGet st.instances iid = some v ∨ v.vars = inst.vars) := by
  intro nodes
  induction nodes with
  | nil => intro st inst; exact ⟨rfl, fun iid v hv => Or.inl hv⟩
  | cons node rest ihn =>
    intro st inst
    simp only [execNodes]
    split
    · exact ⟨(execNode_vars_pres fuel defn st inst node).1,
        (execNode_vars_pres fuel defn st inst node).2⟩
    · constructor
      · exact ((ihn _ _).1).trans (execNode_vars_pres fuel defn st inst node).1
      · intro iid v hv
        rcases (ihn _ _).2 iid v hv with h1 | h2
        · rcases (execNode_vars_pres fuel defn st inst node).2 iid v h1 with h3 | h4
          · exact Or.inl h3
          · exact Or.inr h4
        · exact Or.inr (h2.trans (execNode_vars_pres fuel defn st inst node).1)

theorem execNodes_err_shape (fuel : Nat) (defn : ProcessDefinition) :
    ∀ (nodes : List Node) (st : EngineState) (inst : ProcessInstance) (tid : String),
      (execNodes fuel st defn inst nodes).err ≠
        some (EngineError.taskNotFoundOrNotInProgress tid) := by
  intro nodes
  induction nodes with
  | nil => intro st inst tid h; simp [execNodes] at h
  | cons node rest ihn =>
    intro st inst tid
    simp only [execNodes]
    split
    next e heq =>
      intro h
      have h2 : e = EngineError.taskNotFoundOrNotInProgress tid := by
        simpa using h
      exact execNode_err_shape fuel defn st inst node tid (by rw [heq, h2])
    next heq => exact ihn _ _ tid

theorem execNodes_len (fuel : Nat) (defn : ProcessDefinition) :
    ∀ (nodes : List Node) (st : EngineState) (inst : ProcessInstance),
      inst.current_node_ids.length = 1 →
      (execNodes fuel st defn inst nodes).inst.current_node_ids.length = 1 := by
  intro nodes
  induction nodes with
  | nil => intro st inst h; exact h
  | cons node rest ihn =>
    intro st inst h
    simp only [execNodes]
    split
    · exact execNode_len fuel defn st inst node h
    · exact ihn _ _ (execNode_len fuel defn st inst node h)

theorem execNodes_singleton_store (fuel : Nat) (defn : ProcessDefinition) :
    ∀ (nodes : List Node) (st : EngineState) (inst : ProcessInstance),
      singletonCurrent st → inst.current_node_ids.length = 1 →
      singletonCurrent (execNodes fuel st defn inst nodes).st := by
  intro nodes
  induction nodes with
  | nil => intro st inst hst _; exact hst
  | cons node rest ihn =>
    intro st inst hst h
    simp only [execNodes]
    split
    · exact execNode_singleton_store fuel defn st inst node hst h
    · exact ihn _ _ (execNode_singleton_store fuel defn st inst node hst h)
        (execNode_len fuel defn st inst node h)

theorem execute_nextId_mono (fuel : Nat) (st : EngineState) (inst : ProcessInstance) :
    st.nextId ≤ (execute fuel st inst).st.nextId := by
  simp only [execute]
  split
  · exact le_refl _
  · exact execNodes_nextId_mono fuel _ _ st inst

theorem execute_tasks_frozen (fuel : Nat) (st : EngineState) (inst : ProcessInstance)
    (k : String) (hk : ∀ n, st.nextId ≤ n → k ≠ freshId n) :
    dictGet (execute fuel st inst).st.tasks k = dictGet st.tasks k := by
  simp only [execute]
  split
  · rfl
  · exact execNodes_tasks_frozen fuel _ _ st inst k hk

theorem execute_vars_pres (fuel : Nat) (st : EngineState) (inst : ProcessInstance) :
    ((execute fuel st inst).inst.vars = inst.vars) ∧
    (∀ iid v, dictGet (execute fuel st inst).st.instances iid = some v →
      dictGet st.instances iid = some v ∨ v.vars = inst.vars) := by
  simp only [execute]
  split
  · exact ⟨rfl, fun iid v hv => Or.inl hv⟩
  · exact execNodes_vars_pres fuel _ _ st inst

theorem execute_err_shape (fuel : Nat) (st : EngineState) (inst : ProcessInstance)
    (tid : String) :
    (execute fuel st inst).err ≠ some (EngineError.taskNotFoundOrNotInProgress tid) := by
  simp only [execute]
  split
  · simp
  · exact execNodes_err_shape fuel _ _ st inst tid

theorem execute_len (fuel : Nat) (st : EngineState) (inst : ProcessInstance)
    (h : inst.current_node_ids.length = 1) :
    (execute fuel st inst).inst.current_node_ids.length = 1 := by
  simp only [execute]
  split
  · exact h
  · exact execNodes_len fuel _ _ st inst h

theorem execute_singleton_store (fuel : Nat) (st : EngineState) (inst : ProcessInstance)
    (hst : singletonCurrent st) (h : inst.current_node_ids.length = 1) :
    singletonCurrent (execute fuel st inst).st := by
  simp only [execute]
  split
  · exact hst
  · exact execNodes_singleton_store fuel _ _ st inst hst h

@[simp] theorem mkTask_task_type (st : EngineState) (inst : ProcessInstance) (node : Node) :
    (mkTask st inst node).task_type = propGetStr node.properties "task_type" "user_task" := rfl

@[simp] theorem mkTask_status (st : EngineState) (inst : ProcessInstance) (node : Node) :
    (mkTask st inst node).status = TaskStatus.CREATED := rfl

/-- Visiting a TASK node with a non-service task type creates exactly one
CREATED task and leaves the instance parked. -/
theorem execNode_task_nonservice (fuel : Nat) (st : EngineState) (defn : ProcessDefinition)
    (inst : ProcessInstance) (node : Node)
    (htype : node.type = NodeType.TASK)
    (htask : propGetStr node.properties "task_type" "user_task" ≠ "service_task") :
    execNode (fuel + 1) st defn inst node =
      ⟨{ st with tasks := dictInsert (freshId st.nextId) (mkTask st inst node) st.tasks,
                 nextId := st.nextId + 1 }, inst, none⟩ := by
  have htask2 : ¬((mkTask st inst node).task_type = "service_task") := by
    rw [mkTask_task_type]; exact htask
  simp only [execNode, htype, if_neg htask2, mkTask_id]

/-- When the only current node resolves, `execute` is the loop on that
single node. -/
theorem execute_single (fuel : Nat) (st : EngineState) (inst : ProcessInstance)
    (defn : ProcessDefinition) (nid : String) (node : Node)
    (hdef : dictGet st.definitions inst.process_definition_id = some defn)
    (hcur : inst.current_node_ids = [nid])
    (hnode : defn.get_node nid = some node) :
    execute fuel st inst = execNodes fuel st defn inst [node] := by
  simp only [execute, hdef, hcur, List.filterMap, hnode]

/-- A singleton node loop whose step does not raise is just that step. -/
theorem execNodes_single_ok (fuel : Nat) (st : EngineState) (defn : ProcessDefinition)
    (inst : ProcessInstance) (node : Node) (r : StepResult)
    (hr : execNode fuel st defn inst node = r) (herr : r.err = none) :
    execNodes fuel st defn inst [node] = r := by
  simp only [execNodes, hr, herr]
  cases r with
  | mk st2 inst2 err2 =>
    cases herr
    rfl

theorem matchIndexAux_eq_none (L : Nat) (valStr : String) :
    ∀ (xs : List String) (i : Nat), (∀ j, i ≤ j → j < L - 1 → valStr ≠ toString j) →
      matchIndexAux L valStr i xs = none := by
  intro xs
  induction xs with
  | nil => intro i h; rfl
  | cons x rest ih =>
    intro i h
    simp only [matchIndexAux]
    by_cases hi : i < L - 1
    · rw [if_pos hi, if_neg (h i (le_refl i) hi)]
      exact ih (i + 1) (fun j hj1 hj2 => h j (le_trans (Nat.le_succ i) hj1) hj2)
    · rw [if_neg hi]
      exact ih (i + 1) (fun j hj1 hj2 => h j (le_trans (Nat.le_succ i) hj1) hj2)

theorem matchIndexAux_eq_get (L : Nat) (valStr : String) :
    ∀ (xs : List String) (i t : Nat), valStr = toString (i + t) → i + t < L - 1 →
      t < xs.length → (∀ j, i ≤ j → j < i + t → valStr ≠ toString j) →
      matchIndexAux L valStr i xs = xs.get? t := by
  intro xs
  induction xs with
  | nil => intro i t _ _ ht _; simp at ht
  | cons x rest ih =>
    intro i t hv hlt htlen hfirst
    simp only [matchIndexAux]
    cases t with
    | zero =>
      rw [if_pos (by simpa using hlt), if_pos (by simpa using hv)]
      rfl
    | succ t2 =>
      have hi : i < L - 1 := by omega
      rw [if_pos hi, if_neg (hfirst i (le_refl i) (by omega)), List.get?_cons_succ]
      refine ih (i + 1) t2 ?_ (by omega) (by simpa using htlen) ?_
      · rw [hv]
        congr 1
        omega
      · exact fun j hj1 hj2 => hfirst j (le_trans (Nat.le_succ i) hj1) (by omega)

/-- Inserting an instance record with a singleton active-node list keeps
the store invariant. -/
theorem singletonCurrent_insert (st : EngineState) (n2 : Nat) (key : String)
    (i2 : ProcessInstance) (hst : singletonCurrent st)
    (hi2 : i2.current_node_ids.length = 1) :
    singletonCurrent
      { st with nextId := n2, instances := dictInsert key i2 st.instances } := by
  intro iid i hsome
  simp only [dictGet_dictInsert] at hsome
  split_ifs at hsome with hk
  · rw [← Option.some_inj.mp hsome]
    exact hi2
  · exact hst iid i hsome

/-! Claim theorems. -/

/-- C1: evaluation of the code at the failing input. On the chain
START → TASK (user_task) → END, after `start_process`, `assign_task`,
`start_task` and then `complete_task` on the in-progress task, the engine
does NOT set the owning instance's `current_node_ids` to the task node's
outgoing target (`end_1`): the call returns without error, the instance is
still at `task_1` with status "running" (not COMPLETED), and a duplicate
second Task record has been created at the same node. -/
theorem c1_code_bug_eval :
    stA4.2 = none ∧
    (dictGet stA4.1.instances "uuid-").map ProcessInstance.status = some "running" ∧
    (dictGet stA4.1.instances "uuid-").map ProcessInstance.current_node_ids =
      some ["task_1"] ∧
    stA4.1.tasks.length = 2 ∧
    (dictGet stA4.1.tasks "uuid-x").map Task.status = some TaskStatus.COMPLETED ∧
    (dictGet stA4.1.tasks "uuid-xx").map Task.status = some TaskStatus.CREATED ∧
    (dictGet stA4.1.tasks "uuid-xx").map Task.node_id = some "task_1" := by
  decide

/-- C2: evaluation of the code at the failing input. Starting an instance
of the chain START → TASK (service_task) → END with no variables raises
`TypeError` at the END node (the `_execute_node` dispatch passes three
arguments to the one-parameter `_execute_end_node`): the run ends with the
instance still "running", no completion timestamp, `current_node_ids` at
`end_1`, and exactly one Task record in status COMPLETED. -/
theorem c2_code_bug_eval :
    stB.2.2 = some EngineError.typeErrorEndNode ∧
    stB.2.1 = none ∧
    (dictGet stB.1.instances "uuid-").map ProcessInstance.status = some "running" ∧
    (dictGet stB.1.instances "uuid-").map ProcessInstance.completed_at = some none ∧
    (dictGet stB.1.instances "uuid-").map ProcessInstance.current_node_ids =
      some ["end_1"] ∧
    stB.1.tasks.length = 1 ∧
    (dictGet stB.1.tasks "uuid-x").map Task.status = some TaskStatus.COMPLETED := by
  decide

/-- C3: counterexample. Completing the in-progress user task with the
variable binding `approved = "yes"` stores the pair in the task's
variables but NOT in the owning instance's variables, so the claim that
every supplied pair ends up in both bindings is false. -/
theorem c3_counterexample :
    (dictGet stC.1.tasks "uuid-x").map Task.vars = some [("approved", Value.vStr "yes")] ∧
    (dictGet stC.1.instances "uuid-").map (fun i => dictGet i.vars "approved") =
      some none := by
  decide

/-- C4: counterexample. Re-invoking the Flow Executor on an instance whose
single current node is a USER_TASK awaiting completion is NOT a no-op:
each invocation creates one more Task record (1 → 2 → 3 across two
re-invocations) even though the instance record itself never changes. -/
theorem c4_counterexample :
    stA1.1.tasks.length = 1 ∧
    rP1.err = none ∧ rP1.st.tasks.length = 2 ∧
    rP2.err = none ∧ rP2.st.tasks.length = 3 ∧
    rP2.inst = instParked ∧
    rP1.st.instances = stA1.1.instances := by
  decide

/-- C5: counterexample. Visiting a TASK node whose task_type is
script_task leaves the created Task record in status CREATED (not
COMPLETED) and does not advance the token: only service_task is
auto-completed, so the claim is false for SCRIPT_TASK. -/
theorem c5_counterexample :
    (dictGet (execNode 9 wSt wDefn wInst wScriptNode).st.tasks (freshId 0)).map Task.status =
      some TaskStatus.CREATED ∧
    (dictGet (execNode 9 wSt wDefn wInst wScriptNode).st.tasks (freshId 0)).map Task.status ≠
      some TaskStatus.COMPLETED ∧
    (execNode 9 wSt wDefn wInst wScriptNode).inst = wInst ∧
    (execNode 9 wSt wDefn wInst wScriptNode).err = none := by
  decide

/-- C7: counterexample. An executor step on an instance whose current node
id is absent from the definition does NOT fail with `NodeNotFound` and
does NOT suspend the instance: the token is silently dropped by the
`if node is not None` filter, the state is unchanged, no error is raised,
and the status stays "running". -/
theorem c7_counterexample :
    rGhost.err = none ∧
    rGhost.st = stA0 ∧
    rGhost.inst = instGhost ∧
    rGhost.inst.status = "running" ∧
    rGhost.inst.status ≠ "suspended" := by
  decide

/-- C8: counterexample. Completing a task whose status is ASSIGNED fails
with the `ValueError` raised for any status other than IN_PROGRESS, so the
claim that an ASSIGNED task can be completed is false. -/
theorem c8_counterexample :
    complete_task 9 wSt "t2" [] =
      (wSt, some (EngineError.taskNotFoundOrNotInProgress "t2")) := by
  decide

/-- C9: counterexample. Invoking the Flow Executor on a TERMINATED
instance parked at a user-task node executes the node anyway: a new Task
record is created (1 → 2) with no error, so the executor does not stop
advancing a terminated instance. -/
theorem c9_counterexample :
    instTerminated.status = "terminated" ∧
    stA1.1.tasks.length = 1 ∧
    rT.err = none ∧
    rT.st.tasks.length = 2 ∧
    (dictGet rT.st.tasks "uuid-xx").map Task.status = some TaskStatus.CREATED := by
  decide

/-- C4 (amended): re-invoking the Flow Executor on an instance whose
single current node is a USER_TASK (any non-service task type) leaves the
instance record and the instance store unchanged and raises no error, but
it is not a no-op on the task store: every invocation creates exactly one
fresh Task record for that node. -/
theorem c4_amended (fuel : Nat) (st : EngineState) (inst : ProcessInstance)
    (defn : ProcessDefinition) (node : Node) (nid : String)
    (hdef : dictGet st.definitions inst.process_definition_id = some defn)
    (hcur : inst.current_node_ids = [nid])
    (hnode : defn.get_node nid = some node)
    (htype : node.type = NodeType.TASK)
    (htask : propGetStr node.properties "task_type" "user_task" ≠ "service_task") :
    execute (fuel + 1) st inst =
      ⟨{ st with tasks := dictInsert (freshId st.nextId) (mkTask st inst node) st.tasks,
                 nextId := st.nextId + 1 }, inst, none⟩ ∧
    (dictGet st.tasks (freshId st.nextId) = none →
      (execute (fuel + 1) st inst).st.tasks.length = st.tasks.length + 1) := by
  have hstep := execNode_task_nonservice fuel st defn inst node htype htask
  have hmain : execute (fuel + 1) st inst =
      ⟨{ st with tasks := dictInsert (freshId st.nextId) (mkTask st inst node) st.tasks,
                 nextId := st.nextId + 1 }, inst, none⟩ :=
    (execute_single (fuel + 1) st inst defn nid node hdef hcur hnode).trans
      (execNodes_single_ok (fuel + 1) st defn inst node _ hstep rfl)
  constructor
  · exact hmain
  · intro hfree
    rw [hmain]
    exact length_dictInsert_of_none _ _ _ hfree

/-- C9 (amended): the executor never checks the instance status, so a
TERMINATED instance parked at a (non-service) TASK node is advanced
exactly as a running one: the visit raises no error and creates a fresh
CREATED Task record for the node. -/
theorem c9_amended (fuel : Nat) (st : EngineState) (inst : ProcessInstance)
    (defn : ProcessDefinition) (node : Node) (nid : String)
    (hstatus : inst.status = "terminated")
    (hdef : dictGet st.definitions inst.process_definition_id = some defn)
    (hcur : inst.current_node_ids = [nid])
    (hnode : defn.get_node nid = some node)
    (htype : node.type = NodeType.TASK)
    (htask : propGetStr node.properties "task_type" "user_task" ≠ "service_task") :
    (execute (fuel + 1) st inst).err = none ∧
    (dictGet (execute (fuel + 1) st inst).st.tasks (freshId st.nextId)).map Task.status =
      some TaskStatus.CREATED ∧
    (dictGet st.tasks (freshId st.nextId) = none →
      (execute (fuel + 1) st inst).st.tasks.length = st.tasks.length + 1) := by
  have hstep := execNode_task_nonservice fuel st defn inst node htype htask
  have hmain : execute (fuel + 1) st inst =
      ⟨{ st with tasks := dictInsert (freshId st.nextId) (mkTask st inst node) st.tasks,
                 nextId := st.nextId + 1 }, inst, none⟩ :=
    (execute_single (fuel + 1) st inst defn nid node hdef hcur hnode).trans
      (execNodes_single_ok (fuel + 1) st defn inst node _ hstep rfl)
  refine ⟨by rw [hmain], ?_, ?_⟩
  · rw [hmain]
    simp [dictGet_dictInsert_self]
  · intro hfree
    rw [hmain]
    exact length_dictInsert_of_none _ _ _ hfree

/-- C4 witness: re-running the executor on the parked witness instance
indeed adds one task and leaves the instance untouched. -/
theorem c4_amended_witness :
    (execute 9 wSt wInst).st.tasks.length = wSt.tasks.length + 1 ∧
    (execute 9 wSt wInst).inst = wInst ∧
    (execute 9 wSt wInst).err = none := by
  have h := c4_amended 8 wSt wInst wDefn wTaskNode "t_node" (by decide) (by decide)
    (by decide) (by decide) (by decide)
  exact ⟨h.2 (by decide), by rw [h.1], by rw [h.1]⟩

/-- C9 witness: the terminated witness instance still gets a fresh task. -/
theorem c9_amended_witness :
    (execute 9 wSt { wInst with status := "terminated" }).err = none ∧
    (dictGet (execute 9 wSt { wInst with status := "terminated" }).st.tasks
        (freshId 0)).map Task.status = some TaskStatus.CREATED := by
  have h := c9_amended 8 wSt { wInst with status := "terminated" } wDefn wTaskNode "t_node"
    (by decide) (by decide) (by decide) (by decide) (by decide) (by decide)
  exact ⟨h.1, h.2.1⟩

/-- C5 (amended): at a TASK node, only task_type service_task is
synchronously completed: the created Task record ends up COMPLETED in the
task store and the token advances along the first-listed outgoing edge;
any other task type (user_task, script_task) leaves a CREATED task and
parks the token, the instance unchanged. -/
theorem c5_amended (fuel : Nat) (st : EngineState) (defn : ProcessDefinition)
    (inst : ProcessInstance) (node : Node)
    (htype : node.type = NodeType.TASK) :
    (propGetStr node.properties "task_type" "user_task" ≠ "service_task" →
      execNode (fuel + 1) st defn inst node =
        ⟨{ st with tasks := dictInsert (freshId st.nextId) (mkTask st inst node) st.tasks,
                   nextId := st.nextId + 1 }, inst, none⟩ ∧
      (mkTask st inst node).status = TaskStatus.CREATED) ∧
    (∀ next rest, propGetStr node.properties "task_type" "user_task" = "service_task" →
      node.outgoing = next :: rest →
      (dictGet (execNode (fuel + 1) st defn inst node).st.tasks (freshId st.nextId)).map
          Task.status = some TaskStatus.COMPLETED ∧
      execNode (fuel + 1) st defn inst node =
        (let st3 := updInstance
            { st with
              tasks :=
                dictInsert (freshId st.nextId)
                  ((mkTask st inst node).start_work.complete)
                  (dictInsert (freshId st.nextId) (mkTask st inst node) st.tasks),
              nextId := st.nextId + 1 }
            { inst with current_node_ids := [next] }
         match defn.get_node next with
         | some next_node =>
           execNode fuel st3 defn { inst with current_node_ids := [next] } next_node
         | none => ⟨st3, { inst with current_node_ids := [next] }, none⟩)) := by
  constructor
  · intro htask
    exact ⟨execNode_task_nonservice fuel st defn inst node htype htask, rfl⟩
  · intro next rest htask hout
    have hsvc : (mkTask st inst node).task_type = "service_task" := by
      rw [mkTask_task_type]; exact htask
    have heq : execNode (fuel + 1) st defn inst node =
        (let st3 := updInstance
            { st with
              tasks :=
                dictInsert (freshId st.nextId)
                  ((mkTask st inst node).start_work.complete)
                  (dictInsert (freshId st.nextId) (mkTask st inst node) st.tasks),
              nextId := st.nextId + 1 }
            { inst with current_node_ids := [next] }
         match defn.get_node next with
         | some next_node =>
           execNode fuel st3 defn { inst with current_node_ids := [next] } next_node
         | none => ⟨st3, { inst with current_node_ids := [next] }, none⟩) := by
      simp only [execNode, htype, hout, if_pos hsvc, mkTask_id, mkTask_start_work,
        complete_id]
    refine ⟨?_, heq⟩
    rw [heq]
    cases hg : defn.get_node next with
    | none =>
      simp [dictGet_dictInsert_self]
    | some nn =>
      dsimp only
      rw [execNode_tasks_frozen fuel defn _ _ _ (freshId st.nextId) ?hfr]
      case hfr =>
        intro n hn heq2
        have hn2 : st.nextId + 1 ≤ n := hn
        have := freshId_inj heq2
        omega
      simp [dictGet_dictInsert_self]

/-- C5 witness: visiting the witness service-task node leaves a COMPLETED
task record in the final store. -/
theorem c5_amended_witness :
    (dictGet (execNode 9 wSt wDefn wInst wServiceNode).st.tasks (freshId 0)).map
      Task.status = some TaskStatus.COMPLETED := by
  have h := (c5_amended 8 wSt wDefn wInst wServiceNode (by decide)).2 "gone" []
    (by decide) (by decide)
  exact h.1

/-- C7 (amended): an executor step that meets a node id absent from the
definition neither raises nor suspends: a missing current node id is
silently dropped (the step is a complete no-op), and a missing edge target
leaves `current_node_ids` pointing at the dangling id with execution
stopping silently; the instance status is never changed to SUSPENDED. -/
theorem c7_amended :
    (∀ (fuel : Nat) (st : EngineState) (inst : ProcessInstance)
        (defn : ProcessDefinition) (nid : String),
      dictGet st.definitions inst.process_definition_id = some defn →
      inst.current_node_ids = [nid] → defn.get_node nid = none →
      execute fuel st inst = ⟨st, inst, none⟩) ∧
    (∀ (fuel : Nat) (st : EngineState) (inst : ProcessInstance)
        (defn : ProcessDefinition) (nid next : String) (node : Node),
      dictGet st.definitions inst.process_definition_id = some defn →
      inst.current_node_ids = [nid] → defn.get_node nid = some node →
      node.type = NodeType.START → node.outgoing = [next] → defn.get_node next = none →
      execute (fuel + 1) st inst =
        ⟨updInstance st { inst with current_node_ids := [next] },
         { inst with current_node_ids := [next] }, none⟩ ∧
      (execute (fuel + 1) st inst).inst.status = inst.status ∧
      (execute (fuel + 1) st inst).err = none) := by
  constructor
  · intro fuel st inst defn nid hdef hcur hnid
    simp [execute, hdef, hcur, hnid, execNodes]
  · intro fuel st inst defn nid next node hdef hcur hnode htype hout hnext
    have hstep : execNode (fuel + 1) st defn inst node =
        ⟨updInstance st { inst with current_node_ids := [next] },
         { inst with current_node_ids := [next] }, none⟩ := by
      simp only [execNode, htype, hout, hnext]
    have hmain := (execute_single (fuel + 1) st inst defn nid node hdef hcur hnode).trans
      (execNodes_single_ok (fuel + 1) st defn inst node _ hstep rfl)
    exact ⟨hmain, by rw [hmain], by rw [hmain]⟩

/-- C7 witness: the dangling-edge state indeed advances to the missing id
and stops silently. -/
theorem c7_amended_witness :
    execute 9 wEdgeSt wEdgeInst =
      ⟨updInstance wEdgeSt { wEdgeInst with current_node_ids := ["gone"] },
       { wEdgeInst with current_node_ids := ["gone"] }, none⟩ := by
  exact (c7_amended.2 8 wEdgeSt wEdgeInst wEdgeDefn "s_node" "gone" wStartDangling
    (by decide) (by decide) (by decide) (by decide) (by decide) (by decide)).1

/-- C8 (amended): `complete_task` fails, leaving every store unchanged,
exactly when the task is absent or its status is not IN_PROGRESS (so a
task in ASSIGNED also fails, and a second completion of a COMPLETED task
fails with the task and instance untouched); when the task is IN_PROGRESS
the task-state check never raises. -/
theorem c8_amended (fuel : Nat) (st : EngineState) (tid : String) (vs : Dict Value) :
    (dictGet st.tasks tid = none →
      complete_task fuel st tid vs =
        (st, some (EngineError.taskNotFoundOrNotInProgress tid))) ∧
    (∀ t, dictGet st.tasks tid = some t → t.status ≠ TaskStatus.IN_PROGRESS →
      complete_task fuel st tid vs =
        (st, some (EngineError.taskNotFoundOrNotInProgress tid))) ∧
    (∀ t, dictGet st.tasks tid = some t → t.status = TaskStatus.IN_PROGRESS →
      (complete_task fuel st tid vs).2 ≠
        some (EngineError.taskNotFoundOrNotInProgress tid)) := by
  refine ⟨?_, ?_, ?_⟩
  · intro h
    simp only [complete_task, h]
  · intro t ht hs
    simp only [complete_task, ht, if_pos hs]
  · intro t ht hs
    simp only [complete_task, ht]
    rw [if_neg (by simp [hs])]
    split
    · simp
    · exact execute_err_shape fuel _ _ tid

/-- C8 witness: the second completion of the already-COMPLETED witness
task fails with the state unchanged. -/
theorem c8_amended_witness :
    complete_task 9 wSt "t3" [] =
      (wSt, some (EngineError.taskNotFoundOrNotInProgress "t3")) := by
  exact (c8_amended 9 wSt "t3" []).2.1 wTaskDone (by decide) (by decide)

/-- C6 (confirmed): for a DECISION node whose condition is a truthy
string containing both brace markers and resolving to variable name `v`,
with at least one outgoing edge: the choice never fails; an unbound
variable routes to the last (default) edge; a bound value that matches no
stringified index below the last edge routes to the default; and a bound
value whose first stringified-index match is `t` (in declaration order,
among all edges but the last) routes to edge `t`. -/
theorem c6_confirmed (node : Node) (bindings : Dict Value) (c v : String)
    (hout : node.outgoing ≠ [])
    (hc : dictGet node.properties "condition" = some (Value.vStr c))
    (hcne : c ≠ "")
    (h1 : pyContains c "\x7b\x7b" = true)
    (h2 : pyContains c "\x7d\x7d" = true)
    (hv : pyReplace (pyReplace c "\x7b\x7b" "") "\x7d\x7d" "" = v) :
    decisionNext node bindings ≠ none ∧
    (dictGet bindings v = none → decisionNext node bindings = node.outgoing.getLast?) ∧
    (∀ val, dictGet bindings v = some val →
      ((∀ i, i < node.outgoing.length - 1 → pyStr val ≠ toString i) →
        decisionNext node bindings = node.outgoing.getLast?) ∧
      (∀ t, t < node.outgoing.length - 1 → pyStr val = toString t →
        (∀ j, j < t → pyStr val ≠ toString j) →
        decisionNext node bindings = node.outgoing.get? t)) := by
  have hlast : node.outgoing.getLast? ≠ none := by
    simpa [List.getLast?_eq_none_iff] using hout
  have hunfN : dictGet bindings v = none →
      decisionNext node bindings = node.outgoing.getLast? := by
    intro hb
    simp only [decisionNext, hc, if_pos (And.intro hcne (And.intro h1 h2)), hv, hb]
  have hunfS : ∀ val, dictGet bindings v = some val →
      decisionNext node bindings =
        (match matchIndexAux node.outgoing.length (pyStr val) 0 node.outgoing with
         | some next_node_id => some next_node_id
         | none => node.outgoing.getLast?) := by
    intro val hb
    simp only [decisionNext, hc, if_pos (And.intro hcne (And.intro h1 h2)), hv, hb]
  refine ⟨?_, hunfN, ?_⟩
  · cases hb : dictGet bindings v with
    | none =>
      rw [hunfN hb]
      exact hlast
    | some val =>
      rw [hunfS val hb]
      cases hm : matchIndexAux node.outgoing.length (pyStr val) 0 node.outgoing with
      | none => simpa using hlast
      | some e => simp
  · intro val hb
    constructor
    · intro hno
      rw [hunfS val hb,
        matchIndexAux_eq_none node.outgoing.length (pyStr val) node.outgoing 0
          (fun j _ hj => hno j hj)]
    · intro t ht hvt hfirst
      have htl : t < node.outgoing.length := by omega
      have hm := matchIndexAux_eq_get node.outgoing.length (pyStr val) node.outgoing 0 t
        (by simpa using hvt) (by simpa using ht) htl
        (fun j _ hj => hfirst j (by simpa using hj))
      rw [List.get?_eq_get htl] at hm
      rw [hunfS val hb, hm, List.get?_eq_get htl]

/-- C6 witness: the spec's routing example, with `approval = "0"`, picks
the first edge `task_2`. -/
theorem c6_witness :
    decisionNext wDecisionNode [("approval", Value.vStr "0")] = some "task_2" := by
  have h := (c6_confirmed wDecisionNode [("approval", Value.vStr "0")]
    "\x7b\x7bapproval\x7d\x7d" "approval" (by decide) (by decide) (by decide)
    (by decide) (by decide) (by decide)).2.2 (Value.vStr "0") (by decide)
  have h2 := h.2 0 (by decide) (by decide) (fun j hj => absurd hj (Nat.not_lt_zero j))
  exact h2.trans (by decide)

/-- C3 (amended): for every task accepted by `complete_task`, the
supplied variables are merged into the completed task's variables only:
every supplied pair is afterwards readable from the stored task record,
while the owning instance's variable bindings are left unchanged (nothing
is merged into the instance). -/
theorem c3_amended (fuel : Nat) (st : EngineState) (task_id : String) (vs : Dict Value)
    (task : Task) (inst : ProcessInstance)
    (ht : dictGet st.tasks task_id = some task)
    (hid : task.id = task_id)
    (hst : task.status = TaskStatus.IN_PROGRESS)
    (hi : dictGet st.instances task.process_instance_id = some inst)
    (hfresh : ∀ n, st.nextId ≤ n → task_id ≠ freshId n)
    (hkeys : (vs.map Prod.fst).Nodup) :
    (∀ k w, dictGet vs k = some w →
      (dictGet (complete_task fuel st task_id vs).1.tasks task_id).map
        (fun t => dictGet t.vars k) = some (some w)) ∧
    (∀ v2, dictGet (complete_task fuel st task_id vs).1.instances
        task.process_instance_id = some v2 → v2.vars = inst.vars) := by
  obtain ⟨t2, ht2pid, ht2vars, hmain⟩ :
      ∃ t2 : Task, t2.process_instance_id = task.process_instance_id ∧
        t2.vars = (if vs ≠ [] then dictUpdate task.vars vs else task.vars) ∧
        complete_task fuel st task_id vs =
          ((execute fuel { st with tasks := dictInsert task_id t2 st.tasks } inst).st,
           (execute fuel { st with tasks := dictInsert task_id t2 st.tasks } inst).err) := by
    refine ⟨(if vs ≠ [] then
        { task.complete with vars := dictUpdate task.complete.vars vs }
      else task.complete), ?_, ?_, ?_⟩
    · split_ifs <;> rfl
    · split_ifs <;> rfl
    · have hks : (if vs ≠ [] then
          { task.complete with vars := dictUpdate task.complete.vars vs }
        else task.complete).id = task_id := by
        split_ifs <;> simpa using hid
      simp only [complete_task, ht]
      rw [if_neg (by simp [hst])]
      have hpid2 : (if vs ≠ [] then
          { task.complete with vars := dictUpdate task.complete.vars vs }
        else task.complete).process_instance_id = task.process_instance_id := by
        split_ifs <;> rfl
      simp only [hks, hpid2, hi]
  constructor
  · intro k w hk
    have hne : vs ≠ [] := by
      intro h0
      subst h0
      simp [dictGet] at hk
    rw [hmain]
    have hfrozen := execute_tasks_frozen fuel
      { st with tasks := dictInsert task_id t2 st.tasks } inst task_id
      (fun n hn => hfresh n hn)
    rw [hfrozen]
    have hself : dictGet ({ st with tasks := dictInsert task_id t2 st.tasks}).tasks task_id =
        some t2 := dictGet_dictInsert_self task_id t2 st.tasks
    rw [hself]
    rw [show (some t2).map (fun t => dictGet t.vars k) = some (dictGet t2.vars k) from rfl]
    rw [ht2vars, if_pos hne]
    rw [dictGet_dictUpdate_of_get vs task.vars k w hkeys hk]
  · intro v2 hv2
    rw [hmain] at hv2
    rcases (execute_vars_pres fuel
        { st with tasks := dictInsert task_id t2 st.tasks } inst).2 _ v2 hv2 with h1 | h2
    · have h3 : dictGet st.instances task.process_instance_id = some v2 := h1
      rw [hi] at h3
      have h4 := Option.some_inj.mp h3
      rw [← h4]
    · exact h2

/-- C3 witness: completing the in-progress witness task with
`approved = "yes"` makes the pair readable from the stored task record. -/
theorem c3_amended_witness :
    (dictGet (complete_task 9 wSt "t1" [("approved", Value.vStr "yes")]).1.tasks
      "t1").map (fun t => dictGet t.vars "approved") = some (some (Value.vStr "yes")) := by
  exact (c3_amended 9 wSt "t1" [("approved", Value.vStr "yes")] wTaskInProgress wInst
    (by decide) (by decide) (by decide) (by decide)
    (fun n _ => ne_freshId_of_length_lt "t1" (by decide) n) (by decide)).1
    "approved" (Value.vStr "yes") (by decide)

/-- C10 (confirmed): the invariant that `current_node_ids` is a singleton
holds along every executor path: node execution keeps the threaded
instance's active-node list at exactly one element, `execute` preserves
it, and `start_process` keeps every stored instance record (including the
newly created one, born with `[start_node_id]`) at exactly one element. -/
theorem c10_confirmed :
    (∀ (fuel : Nat) (st : EngineState) (defn : ProcessDefinition)
        (inst : ProcessInstance) (node : Node),
      inst.current_node_ids.length = 1 →
      (execNode fuel st defn inst node).inst.current_node_ids.length = 1) ∧
    (∀ (fuel : Nat) (st : EngineState) (inst : ProcessInstance),
      inst.current_node_ids.length = 1 →
      (execute fuel st inst).inst.current_node_ids.length = 1) ∧
    (∀ (fuel : Nat) (st : EngineState) (did : String) (vs : Dict Value),
      singletonCurrent st → singletonCurrent (start_process fuel st did vs).1) := by
  refine ⟨fun fuel st defn inst node h => execNode_len fuel defn st inst node h,
    fun fuel st inst h => execute_len fuel st inst h, ?_⟩
  intro fuel st did vs hst
  simp only [start_process]
  split
  · exact hst
  · split_ifs with hact
    · exact hst
    · split
      · exact execute_singleton_store fuel _ _
          (singletonCurrent_insert st _ _ _ hst rfl) rfl
      · exact execute_singleton_store fuel _ _
          (singletonCurrent_insert st _ _ _ hst rfl) rfl

/-- C10 witness: one concrete node execution keeps the singleton. -/
theorem c10_witness :
    (execNode 9 wSt wDefn wInst wTaskNode).inst.current_node_ids.length = 1 := by
  exact c10_confirmed.1 9 wSt wDefn wInst wTaskNode (by decide)

end ProcessEngine
